import Mathlib

/-!
Shallow embedding of the resume scoring and ranking engine
(`ranker.py`, `resume_processor.py`, scoring glue in `app.py`).

Modelling conventions:
* Python floats are modelled as exact rationals (`ℚ`); all score arithmetic in
  the source is on small decimal constants, so this is faithful up to the usual
  real-arithmetic idealization of the specification.
* Python strings are Lean `String`s; `str.lower`/`str.strip` are modelled by
  the character-wise `pyLower`/`pyStrip` below (faithful on the ASCII data the
  extractor vocabulary and scores operate on).
* Python `list(set(..))` results whose order is unspecified are modelled as
  `Finset`s.
* A Python attribute that may or may not exist on an object is modelled as an
  `Option` field: `none` means "attribute was never assigned; reading it raises
  `AttributeError`".
-/

namespace ResumeAnalyzer

/-- Contact fields extracted from a resume.  The source returns a dict that
contains the key only when the corresponding regex matched; `none` models the
absent key (not an empty string). -/
structure ContactInfo where
  email : Option String
  phone : Option String
deriving DecidableEq

/-- One entry of `resumes_data` as built in `app.py` (`rank_resumes`,
lines 252-259): filename, cleaned text, extracted skills, extracted
experience years and contact info. -/
structure ResumeData where
  filename : String
  text : String
  skills : List String
  experience_years : Nat
  contact_info : ContactInfo
deriving DecidableEq

/-- The `job_requirements` dict as consumed by `ranker.py` (keys
`job_description`, `required_skills`, `min_experience`). -/
structure JobRequirements where
  job_description : String
  required_skills : List String
  min_experience : Nat
deriving DecidableEq

/-- The result record appended to `ranked_resumes` in
`ResumeRanker.rank_resumes` (lines 102-112 of `ranker.py`).
`matched_skills` is built from `list(set(..) & set(..))`, whose order is
unspecified, hence a `Finset`. -/
structure RankedResume where
  filename : String
  final_score : ℚ
  skill_score : ℚ
  text_similarity : ℚ
  experience_score : ℚ
  matched_skills : Finset String
  total_skills : Nat
  experience_years : Nat
  contact_info : ContactInfo
deriving DecidableEq

/-- Abstract TF-IDF vectorizer.  No code path of the repository ever
constructs one (`__init__` assigns only `self.nlp`), so its similarity
computation is left abstract: the value is never consulted by any reachable
branch of `calculate_text_similarity`. -/
structure Vectorizer where
  fitCosine : String → String → ℚ

/-- State of a `ResumeRanker` object.  `vectorizer : Option Vectorizer`
models the `self.vectorizer` attribute; `none` means the attribute does not
exist and reading it raises `AttributeError`. -/
structure ResumeRanker where
  nlp : Option Unit
  vectorizer : Option Vectorizer

/-- `ResumeRanker.__init__` (lines 8-22 of `ranker.py`): it assigns
`self.nlp` (either a loaded model or `None`) and never assigns
`self.vectorizer`.  The parameter covers both outcomes of the spaCy load. -/
def ResumeRanker.init (nlp : Option Unit) : ResumeRanker :=
  ⟨nlp, none⟩

/-- Python `str.lower` on the ASCII data the pipeline handles: character-wise
lower-casing. -/
def pyLower (s : String) : String :=
  String.mk (s.data.map Char.toLower)

/-- Python `str.strip` with no argument: remove leading and trailing
whitespace. -/
def pyStrip (s : String) : String :=
  String.mk (((s.data.dropWhile Char.isWhitespace).reverse.dropWhile Char.isWhitespace).reverse)

/-- `ResumeRanker.calculate_skill_match_score` (lines 24-37 of `ranker.py`):
returns 0 on empty `required_skills` or empty `resume_skills`; otherwise
lower-cases and strips both lists and divides the cardinality of the set
intersection by the *length of the required list* (duplicates included). -/
def calculate_skill_match_score (resume_skills required_skills : List String) : ℚ :=
  if required_skills = [] then 0
  else if resume_skills = [] then 0
  else
    let resume_skills_lower := resume_skills.map (fun skill => pyStrip (pyLower skill))
    let required_skills_lower := required_skills.map (fun skill => pyStrip (pyLower skill))
    let matched_skills := resume_skills_lower.toFinset ∩ required_skills_lower.toFinset
    (matched_skills.card : ℚ) / (required_skills_lower.length : ℚ)

/-- `ResumeRanker.calculate_text_similarity` (lines 39-51 of `ranker.py`):
empty input short-circuits to 0.0 before the `try` block; otherwise the read
of `self.vectorizer` raises `AttributeError` when the attribute is absent and
the catch-all `except` returns 0.0; with a vectorizer present it would return
the TF-IDF cosine similarity. -/
def ResumeRanker.calculate_text_similarity (self : ResumeRanker)
    (resume_text job_description : String) : ℚ :=
  if resume_text = "" ∨ job_description = "" then 0
  else
    match self.vectorizer with
    | none => 0
    | some v => v.fitCosine resume_text job_description

/-- `ResumeRanker.calculate_experience_score` (lines 53-64 of `ranker.py`). -/
def calculate_experience_score (resume_experience required_experience : Nat) : ℚ :=
  if required_experience = 0 then 1
  else if resume_experience ≥ required_experience then 1
  else if resume_experience = 0 then 0
  else min ((resume_experience : ℚ) / (required_experience : ℚ)) 1

/-- Body of the per-resume loop of `ResumeRanker.rank_resumes`
(lines 70-114 of `ranker.py`): the three component scores, the fixed-weight
final score, the matched-skill set (lower-cased only, no strip, computed only
when both skill lists are non-empty) and the remaining copied fields. -/
def ResumeRanker.scoreResume (self : ResumeRanker) (resume_data : ResumeData)
    (job_requirements : JobRequirements) : RankedResume :=
  let skill_score :=
    calculate_skill_match_score resume_data.skills job_requirements.required_skills
  let text_similarity :=
    self.calculate_text_similarity resume_data.text job_requirements.job_description
  let experience_score :=
    calculate_experience_score resume_data.experience_years job_requirements.min_experience
  let final_score := skill_score * 0.4 + text_similarity * 0.35 + experience_score * 0.25
  let matched_skills :=
    if resume_data.skills ≠ [] ∧ job_requirements.required_skills ≠ [] then
      (resume_data.skills.map pyLower).toFinset ∩
        (job_requirements.required_skills.map pyLower).toFinset
    else ∅
  ⟨resume_data.filename, final_score, skill_score, text_similarity, experience_score,
    matched_skills, resume_data.skills.length, resume_data.experience_years,
    resume_data.contact_info⟩

/-- Descending comparison on `final_score`; `scoreGE a b` holds when `a`
ranks at least as high as `b`. -/
def scoreGE (a b : RankedResume) : Prop :=
  b.final_score ≤ a.final_score

instance : DecidableRel scoreGE :=
  fun a b => inferInstanceAs (Decidable (b.final_score ≤ a.final_score))

instance : IsTotal RankedResume scoreGE :=
  ⟨fun a b => le_total b.final_score a.final_score⟩

instance : IsTrans RankedResume scoreGE :=
  ⟨fun _ _ _ hab hbc => le_trans hbc hab⟩

/-- The accumulation loop of `ResumeRanker.rank_resumes` (lines 68-118 of
`ranker.py`), generic in the per-resume scoring step: `Except.ok` models a
normally computed result record, `Except.error` models an exception caught by
the per-resume `except` handler, which reports a diagnostic and `continue`s,
so the resume is skipped. -/
def processResumes (score : ResumeData → Except String RankedResume) :
    List ResumeData → List RankedResume
  | [] => []
  | d :: ds =>
    match score d with
    | Except.ok r => r :: processResumes score ds
    | Except.error _ => processResumes score ds

/-- `ResumeRanker.rank_resumes` after the loop sorts with Python's
`list.sort(key=.., reverse=True)`, a *stable* descending sort by
`final_score` (line 121 of `ranker.py`).  A stable sort is extensionally
unique, so it is modelled by stable insertion sort with the descending
comparison `scoreGE`. -/
def rank_resumes_core (score : ResumeData → Except String RankedResume)
    (resumes_data : List ResumeData) : List RankedResume :=
  List.insertionSort scoreGE (processResumes score resumes_data)

/-- `ResumeRanker.rank_resumes` (lines 66-123 of `ranker.py`): with
well-formed inputs the pure loop body never raises, so every step of the
generic loop is an `Except.ok`. -/
def ResumeRanker.rank_resumes (self : ResumeRanker) (resumes_data : List ResumeData)
    (job_requirements : JobRequirements) : List RankedResume :=
  rank_resumes_core (fun d => Except.ok (self.scoreResume d job_requirements)) resumes_data

/-! ### Feedback generator (`get_improvement_suggestions`, lines 125-150) -/

/-- Message appended when `skill_score < 0.3`. -/
def msg_critical_skill : String :=
  "🎯 **Critical Skill Gap**: You\x27re missing most required skills. Consider learning the key technologies."

/-- Message appended when `0.3 ≤ skill_score < 0.6`. -/
def msg_skill_enhancement : String :=
  "🎯 **Skill Enhancement**: Focus on learning the missing skills to improve your match."

/-- Message appended when `text_similarity < 0.2`. -/
def msg_resume_content : String :=
  "📝 **Resume Content**: Your resume content doesn\x27t align well with the job description. Use more relevant keywords."

/-- Message appended when `0.2 ≤ text_similarity < 0.4`. -/
def msg_content_optimization : String :=
  "📝 **Content Optimization**: Tailor your resume to better match the job requirements."

/-- Message appended when `experience_score < 0.5`. -/
def msg_experience_gap : String :=
  "💼 **Experience Gap**: Consider highlighting relevant projects or internships to bridge the experience gap."

/-- Fixed lead-in of the priority-learning message. -/
def msg_priority_head : String :=
  "📚 **Priority Learning**: Focus on these skills: "

/-- The priority-learning message: the first three missing skills
(`missing_skills[:3]`) joined with a comma. -/
def msg_priority (missing_skills : List String) : String :=
  msg_priority_head ++ String.intercalate ", " (missing_skills.take 3)

/-- Message emitted when no rule fired. -/
def msg_excellent : String :=
  "🎉 **Excellent Match**: Your resume aligns well with this position!"

/-- `ResumeRanker.get_improvement_suggestions` (lines 125-150 of
`ranker.py`): appends messages to `suggestions` rule by rule in source
order, then replaces an empty result with the single positive message. -/
def get_improvement_suggestions (skill_score text_similarity experience_score : ℚ)
    (missing_skills : List String) : List String :=
  let suggestions : List String := []
  let suggestions :=
    if skill_score < 0.3 then suggestions ++ [msg_critical_skill]
    else if skill_score < 0.6 then suggestions ++ [msg_skill_enhancement]
    else suggestions
  let suggestions :=
    if text_similarity < 0.2 then suggestions ++ [msg_resume_content]
    else if text_similarity < 0.4 then suggestions ++ [msg_content_optimization]
    else suggestions
  let suggestions :=
    if experience_score < 0.5 then suggestions ++ [msg_experience_gap]
    else suggestions
  let suggestions :=
    if missing_skills ≠ [] then suggestions ++ [msg_priority missing_skills]
    else suggestions
  if suggestions = [] then [msg_excellent] else suggestions

/-- The rule table of §4.5 of the specification, one segment per row, in
table order.  Used to state that the code emits exactly the concatenation of
the firing rows. -/
def suggestion_parts (skill_score text_similarity experience_score : ℚ)
    (missing_skills : List String) : List String :=
  (if skill_score < 0.3 then [msg_critical_skill]
   else if skill_score < 0.6 then [msg_skill_enhancement]
   else [])
  ++ (if text_similarity < 0.2 then [msg_resume_content]
      else if text_similarity < 0.4 then [msg_content_optimization]
      else [])
  ++ (if experience_score < 0.5 then [msg_experience_gap] else [])
  ++ (if missing_skills ≠ [] then [msg_priority missing_skills] else [])

/-! ### Contact extraction (`ResumeProcessor.extract_contact_info`,
lines 152-168 of `resume_processor.py`)

The two regular expressions are translated into explicit backtracking
matchers on `List Char`, with Python's leftmost-first `re.findall` scan
modelled by trying a match at every start position from the left.  Word
characters, character classes and greedy repetition with backtracking follow
Python `re` semantics on ASCII text. -/

/-- Python `\w` (ASCII range): letters, digits, underscore. -/
def isWordChar (c : Char) : Bool :=
  c.isAlphanum || c = '_'

/-- Boundary helper: word-ness of an optional neighbouring character,
positions outside the text count as non-word. -/
def wordOpt : Option Char → Bool
  | none => false
  | some c => isWordChar c

/-- Character class `[A-Za-z0-9._%+-]` (local part of the email pattern). -/
def isLocalChar (c : Char) : Bool :=
  c.isAlphanum || c = '.' || c = '_' || c = '%' || c = '+' || c = '-'

/-- Character class `[A-Za-z0-9.-]` (domain part of the email pattern). -/
def isDomainChar (c : Char) : Bool :=
  c.isAlphanum || c = '.' || c = '-'

/-- Character class `[A-Z|a-z]` of the email pattern: note that it literally
contains `|`. -/
def isTldChar (c : Char) : Bool :=
  c.isAlpha || c = '|'

/-- Greedy `[A-Z|a-z]{2,}\b` at the start of `after`: try top-level-domain
lengths from the fuel (the full class run) downwards, keeping the first
length `≥ 2` whose end sits on a word boundary. -/
def tryTld (after : List Char) : Nat → Option Nat
  | 0 => none
  | t + 1 =>
    if 2 ≤ t + 1 then
      match after.get? t with
      | some last =>
        if isWordChar last ≠ wordOpt (after.get? (t + 1)) then some (t + 1)
        else tryTld after t
      | none => tryTld after t
    else none

/-- Greedy `[A-Za-z0-9.-]+\.[A-Z|a-z]{2,}\b` at the start of `rest2`: try
domain-part lengths from the fuel (the full class run) downwards; a length
`d + 1` requires a literal `.` right after it, followed by a successful
top-level-domain match.  Returns the matched characters after the `@`. -/
def tryDomain (rest2 : List Char) : Nat → Option (List Char)
  | 0 => none
  | d + 1 =>
    if rest2.get? (d + 1) = some '.' then
      match tryTld (rest2.drop (d + 2)) ((rest2.drop (d + 2)).takeWhile isTldChar).length with
      | some tl => some (rest2.take (d + 1) ++ '.' :: (rest2.drop (d + 2)).take tl)
      | none => tryDomain rest2 d
    else tryDomain rest2 d

/-- One attempt of the email pattern
`\b[A-Za-z0-9._%+-]+@[A-Za-z0-9.-]+\.[A-Z|a-z]{2,}\b` at the current
position; `prev` is the character before the position (for `\b`).  The local
part is its maximal class run (a shorter run cannot be followed by `@`). -/
def tryEmail (prev : Option Char) (cs : List Char) : Option (List Char) :=
  let loc := cs.takeWhile isLocalChar
  match loc with
  | [] => none
  | lc :: _ =>
    if wordOpt prev = isWordChar lc then none
    else
      match cs.drop loc.length with
      | '@' :: rest2 =>
        match tryDomain rest2 ((rest2.takeWhile isDomainChar).length) with
        | some tail => some (loc ++ '@' :: tail)
        | none => none
      | _ => none

/-- Leftmost match of the email pattern: try each start position from the
left, as `re.findall` does; the first element of `findall` is this match. -/
def findEmail (prev : Option Char) : List Char → Option (List Char)
  | [] => none
  | c :: rest =>
    match tryEmail prev (c :: rest) with
    | some m => some m
    | none => findEmail (some c) rest

/-- The digit part `[1-9]?[0-9]{7,15}` of the phone pattern at the current
position, with Python's greedy-then-backtrack handling of the optional
`[1-9]` (it is given back when keeping it leaves fewer than 7 digits for the
mandatory group; that only succeeds when exactly 6 digits follow the lead
digit, giving a 7-digit match). -/
def tryPhoneCore : List Char → Option (List Char)
  | [] => none
  | c :: r =>
    if '1' ≤ c ∧ c ≤ '9' then
      let run := r.takeWhile Char.isDigit
      if 7 ≤ run.length then some (c :: run.take 15)
      else if 6 ≤ run.length then some (c :: run)
      else none
    else
      let run0 := (c :: r).takeWhile Char.isDigit
      if 7 ≤ run0.length then some (run0.take 15) else none

/-- One attempt of the phone pattern `[\+]?[1-9]?[0-9]{7,15}` at the current
position: an optional leading `+` followed by the digit part.  (When a `+`
is present but the digits fail, re-trying without consuming the `+` cannot
succeed either, since `+` is not a digit.) -/
def tryPhone (cs : List Char) : Option (List Char) :=
  if cs.head? = some '+' then (tryPhoneCore cs.tail).map (fun m => '+' :: m)
  else tryPhoneCore cs

/-- Leftmost match of the phone pattern (the pattern has no boundary
anchors, so no previous-character bookkeeping is needed). -/
def findPhone : List Char → Option (List Char)
  | [] => none
  | c :: rest =>
    match tryPhone (c :: rest) with
    | some m => some m
    | none => findPhone rest

/-- `ResumeProcessor.extract_contact_info` (lines 152-168 of
`resume_processor.py`): the dict gets an `email` key only when the email
regex matches (value: first match) and a `phone` key only when the phone
regex matches (value: first match). -/
def extract_contact_info (text : String) : ContactInfo :=
  ⟨(findEmail none text.data).map (fun m => String.mk m),
   (findPhone text.data).map (fun m => String.mk m)⟩

/-- Shape of a phone match as the specification describes it: an optional
leading `+` followed by 7 to 15 digits. -/
def claimPhoneShape (s : String) : Bool :=
  let ds := if s.data.head? = some '+' then s.data.tail else s.data
  ds.all Char.isDigit && decide (7 ≤ ds.length) && decide (ds.length ≤ 15)

/-- Shape of a phone match as the regex actually allows: an optional leading
`+` followed by 7 to 16 digits (the optional `[1-9]` can extend the
mandatory `[0-9]{7,15}` group by one). -/
def actualPhoneShape (s : String) : Bool :=
  let ds := if s.data.head? = some '+' then s.data.tail else s.data
  ds.all Char.isDigit && decide (7 ≤ ds.length) && decide (ds.length ≤ 16)

/-! ## Theorems -/

example : calculate_skill_match_score ["python", "java"] ["python", "sql"] = 1/2 := by
  have h : (((["python", "java"] : List String).map (fun skill => pyStrip (pyLower skill))).toFinset ∩
      ((["python", "sql"] : List String).map (fun skill => pyStrip (pyLower skill))).toFinset).card = 1 := by
    decide
  unfold calculate_skill_match_score
  rw [if_neg (by decide), if_neg (by decide)]
  simp only [h, List.length_map, List.length_cons, List.length_nil]
  norm_num

example : calculate_skill_match_score ["python"] [] = 0 := by rfl

example : (findPhone "call 555-1234".data).map String.mk = none := by decide

example : (findEmail none "a@b@c.com".data).map String.mk = some "b@c.com" := by decide

/-- **C1** (status: code_bug).  The specification says `similarity(t, t) ≈ 1.0`
for non-empty `t`, but on every ranker produced by `__init__` the similarity
of a non-empty text with itself is exactly 0: `self.vectorizer` was never
assigned, the attribute read raises, and the handler returns 0.0.  The
empty-input clauses of the claim do hold: both return 0 before the
vectorizer is touched. -/
theorem c1_similarity_identical_text_is_zero :
    ∀ nlp : Option Unit,
      ((ResumeRanker.init nlp).calculate_text_similarity "hello world" "hello world" = 0)
      ∧ (∀ s : String, (ResumeRanker.init nlp).calculate_text_similarity "" s = 0)
      ∧ (∀ s : String, (ResumeRanker.init nlp).calculate_text_similarity s "" = 0) := by
  intro nlp
  refine ⟨?_, ?_, ?_⟩
  · simp [ResumeRanker.calculate_text_similarity, ResumeRanker.init]
  · intro s
    simp [ResumeRanker.calculate_text_similarity]
  · intro s
    simp [ResumeRanker.calculate_text_similarity]

/-- **C2**: on every ranker state produced by `__init__`,
`calculate_text_similarity` returns exactly 0 for all inputs, because
`self.vectorizer` is never assigned, so the TF-IDF branch always fails and
the catch-all handler maps the failure to 0.0. -/
theorem c2_similarity_always_zero :
    ∀ (nlp : Option Unit) (resume_text job_description : String),
      (ResumeRanker.init nlp).calculate_text_similarity resume_text job_description = 0 := by
  intro nlp resume_text job_description
  unfold ResumeRanker.calculate_text_similarity ResumeRanker.init
  split
  · rfl
  · rfl

/-- **C5**: `calculate_experience_score` returns 1 when the requirement is 0,
else 1 when the resume meets it, else 0 for zero experience, else the ratio
capped at 1; with the four concrete values the claim lists (0.6 = 3/5). -/
theorem c5_experience_score_spec :
    ∀ (resume_years min_years : Nat),
      (calculate_experience_score resume_years min_years =
        if min_years = 0 then 1
        else if resume_years ≥ min_years then 1
        else if resume_years = 0 then 0
        else min ((resume_years : ℚ) / (min_years : ℚ)) 1)
      ∧ calculate_experience_score 0 0 = 1
      ∧ calculate_experience_score 0 5 = 0
      ∧ calculate_experience_score 3 5 = 3/5
      ∧ calculate_experience_score 6 5 = 1 := by
  intro resume_years min_years
  refine ⟨rfl, rfl, by norm_num [calculate_experience_score], ?_, by
    norm_num [calculate_experience_score]⟩
  unfold calculate_experience_score
  norm_num

/-- The normalization the code applies to each skill before intersecting:
`skill.lower().strip()`. -/
def skillNorm (s : String) : String :=
  pyStrip (pyLower s)

/-- `l.toFinset.card = l.length` exactly when `l` has no duplicates. -/
lemma toFinset_card_eq_length_iff (l : List String) :
    l.toFinset.card = l.length ↔ l.Nodup := by
  simpa using Multiset.toFinset_card_eq_card_iff_nodup (m := (l : Multiset String))

/-- **C3** (counterexample).  The claim's "score = 1 iff the lower-cased
resume skills are a superset of the lower-cased required skills, including
required lists with duplicates" fails: with `required = ["python","python"]`
and `resume = ["python"]` the superset holds but the score is 1/2, because
the code divides the cardinality of the intersection *set* by the length of
the required *list*. -/
theorem c3_counterexample :
    ¬ (calculate_skill_match_score ["python"] ["python", "python"] = 1 ↔
        ((["python", "python"] : List String).map pyLower).toFinset ⊆
          ((["python"] : List String).map pyLower).toFinset) := by
  intro h
  have hsub : ((["python", "python"] : List String).map pyLower).toFinset ⊆
      ((["python"] : List String).map pyLower).toFinset := by decide
  have hcard : (((["python"] : List String).map skillNorm).toFinset ∩
      ((["python", "python"] : List String).map skillNorm).toFinset).card = 1 := by decide
  have hval : calculate_skill_match_score ["python"] ["python", "python"] = 1/2 := by
    unfold calculate_skill_match_score skillNorm at *
    rw [if_neg (by decide), if_neg (by decide)]
    simp only [hcard, List.length_map, List.length_cons, List.length_nil]
    norm_num
  rw [hval] at h
  have := h.mpr hsub
  norm_num at this

/-- **C3** (amended).  For all inputs the skill score lies in `[0, 1]`, and
it equals 1 iff the required list is non-empty, its normalized
(lower-cased, stripped) entries are pairwise distinct, and every normalized
required skill occurs among the normalized resume skills. -/
theorem c3_skill_score_range_and_one_iff :
    ∀ (resume_skills required_skills : List String),
      0 ≤ calculate_skill_match_score resume_skills required_skills
      ∧ calculate_skill_match_score resume_skills required_skills ≤ 1
      ∧ (calculate_skill_match_score resume_skills required_skills = 1 ↔
          required_skills ≠ []
          ∧ (required_skills.map skillNorm).Nodup
          ∧ (required_skills.map skillNorm).toFinset ⊆
              (resume_skills.map skillNorm).toFinset) := by
  intro R Q
  by_cases hq : Q = []
  · subst hq
    have hval : calculate_skill_match_score R [] = 0 := by
      unfold calculate_skill_match_score
      simp
    refine ⟨by rw [hval], by rw [hval]; norm_num, ?_⟩
    rw [hval]
    simp
  by_cases hr : R = []
  · subst hr
    have hval : calculate_skill_match_score [] Q = 0 := by
      unfold calculate_skill_match_score
      rw [if_neg hq]
      simp
    refine ⟨by rw [hval], by rw [hval]; norm_num, ?_⟩
    rw [hval]
    constructor
    · intro h01
      exact absurd h01 (by norm_num)
    · rintro ⟨-, -, hsub⟩
      exfalso
      have hempty : (Q.map skillNorm).toFinset = ∅ :=
        Finset.subset_empty.mp (by simpa using hsub)
      have := (List.toFinset_eq_empty_iff _).mp hempty
      exact hq (List.map_eq_nil_iff.mp this)
  · set RF := (R.map skillNorm).toFinset with hRF
    set QF := (Q.map skillNorm).toFinset with hQF
    have hval : calculate_skill_match_score R Q = ((RF ∩ QF).card : ℚ) / (Q.length : ℚ) := by
      unfold calculate_skill_match_score
      rw [if_neg hq, if_neg hr]
      simp only [List.length_map]
      rfl
    have hle1 : (RF ∩ QF).card ≤ QF.card := Finset.card_le_card Finset.inter_subset_right
    have hle2 : QF.card ≤ Q.length := by
      have h := List.toFinset_card_le (l := Q.map skillNorm)
      rwa [List.length_map] at h
    have hqlen : (0 : ℚ) < (Q.length : ℚ) := by
      have h0 : 0 < Q.length := List.length_pos.mpr hq
      exact_mod_cast h0
    refine ⟨?_, ?_, ?_⟩
    · rw [hval]
      positivity
    · rw [hval, div_le_one hqlen]
      exact_mod_cast le_trans hle1 hle2
    · rw [hval, div_eq_one_iff_eq (ne_of_gt hqlen)]
      constructor
      · intro hc
        have hcn : (RF ∩ QF).card = Q.length := by exact_mod_cast hc
        have hQFcard : QF.card = Q.length := le_antisymm hle2 (hcn ▸ hle1)
        have hnodup : (Q.map skillNorm).Nodup := by
          have hlen : (Q.map skillNorm).toFinset.card = (Q.map skillNorm).length := by
            rw [List.length_map]
            exact hQFcard
          exact (toFinset_card_eq_length_iff _).mp hlen
        have hinter : RF ∩ QF = QF :=
          Finset.eq_of_subset_of_card_le Finset.inter_subset_right
            (le_of_eq (hQFcard.trans hcn.symm))
        exact ⟨hq, hnodup, Finset.inter_eq_right.mp hinter⟩
      · rintro ⟨-, hnodup, hsub⟩
        have hinter : RF ∩ QF = QF := Finset.inter_eq_right.mpr hsub
        have hcn : (RF ∩ QF).card = Q.length := by
          rw [hinter]
          have h := List.toFinset_card_of_nodup hnodup
          rwa [List.length_map] at h
        exact_mod_cast congrArg (Nat.cast (R := ℚ)) hcn

/-- The specification's closed-form skill score, parametric in the
normalization applied to both sides before the set intersection: the
cardinality of the intersection over the length of the required sequence,
and 0 whenever either list is empty.  With `norm := pyLower` this is the
claim's own wording ("both sides lower-cased"); with
`norm := skillNorm` it is the amended wording (lower-cased and stripped). -/
def skill_score_formula (norm : String → String) (resume_skills required_skills : List String) : ℚ :=
  if required_skills = [] ∨ resume_skills = [] then 0
  else ((resume_skills.map norm).toFinset ∩ (required_skills.map norm).toFinset).card /
    (required_skills.length : ℚ)

/-- **C4** (counterexample).  The claim describes the score with both sides
*lower-cased* before intersection, but the code also strips surrounding
whitespace (`skill.lower().strip()`): on `resume = ["python "]`,
`required = ["python"]` the code returns 1 while the lower-case-only formula
returns 0. -/
theorem c4_counterexample :
    ¬ (calculate_skill_match_score ["python "] ["python"] =
        skill_score_formula pyLower ["python "] ["python"]) := by
  have hcode : calculate_skill_match_score ["python "] ["python"] = 1 := by
    have hcard : (((["python "] : List String).map (fun skill => pyStrip (pyLower skill))).toFinset ∩
        ((["python"] : List String).map (fun skill => pyStrip (pyLower skill))).toFinset).card = 1 := by
      decide
    unfold calculate_skill_match_score
    rw [if_neg (by decide), if_neg (by decide)]
    simp only [hcard, List.length_map, List.length_cons, List.length_nil]
    norm_num
  have hspec : skill_score_formula pyLower ["python "] ["python"] = 0 := by
    have hcard : (((["python "] : List String).map pyLower).toFinset ∩
        ((["python"] : List String).map pyLower).toFinset).card = 0 := by
      decide
    unfold skill_score_formula
    rw [if_neg (by decide)]
    simp only [hcard]
    norm_num
  rw [hcode, hspec]
  norm_num

/-- **C4** (amended).  For all inputs the code's skill score equals the
claimed formula with the normalization corrected to lower-casing *and*
stripping: `|resume ∩ required| / len(required)` on the normalized lists,
and 0 whenever either list is empty. -/
theorem c4_skill_score_formula :
    ∀ (resume_skills required_skills : List String),
      calculate_skill_match_score resume_skills required_skills =
        skill_score_formula skillNorm resume_skills required_skills := by
  intro R Q
  unfold calculate_skill_match_score skill_score_formula
  by_cases hq : Q = []
  · simp [hq]
  by_cases hr : R = []
  · simp [hq, hr]
  · rw [if_neg hq, if_neg hr, if_neg (by simp [hq, hr])]
    simp only [List.length_map]
    rfl

/-- The positive message differs from every priority-learning message: their
first characters already differ. -/
lemma msg_excellent_ne_priority (missing_skills : List String) :
    msg_excellent ≠ msg_priority missing_skills := by
  intro h
  have h2 : msg_excellent.data.head? = (msg_priority missing_skills).data.head? := by
    rw [h]
  rw [msg_priority, String.data_append, List.head?_append] at h2
  rw [show msg_excellent.data.head? = some '🎉' from by decide,
    show msg_priority_head.data.head? = some '📚' from by decide] at h2
  simp at h2

/-- The positive message never occurs among the rule-table segments. -/
lemma msg_excellent_not_mem_parts (s t e : ℚ) (missing_skills : List String) :
    msg_excellent ∉ suggestion_parts s t e missing_skills := by
  unfold suggestion_parts
  intro hmem
  simp only [List.mem_append, List.mem_singleton] at hmem
  rcases hmem with ((h | h) | h) | h
  · split_ifs at h <;> simp only [List.mem_singleton, List.not_mem_nil] at h <;>
      revert h <;> decide
  · split_ifs at h <;> simp only [List.mem_singleton, List.not_mem_nil] at h <;>
      revert h <;> decide
  · split_ifs at h <;> simp only [List.mem_singleton, List.not_mem_nil] at h
    revert h
    decide
  · split_ifs at h <;> simp only [List.mem_singleton, List.not_mem_nil] at h
    exact msg_excellent_ne_priority _ h

/-- **C8**: the suggestion generator is the rule table evaluated in the fixed
source order: its output is exactly the concatenation of the firing rows (so
several rules may fire and messages appear in table order, with the
priority-learning row quoting at most the first three missing skills), and
it collapses to the single positive message exactly when no rule fires
(`skill ≥ 0.6`, `similarity ≥ 0.4`, `experience ≥ 0.5`, no missing
skills). -/
theorem c8_suggestions_rule_table :
    ∀ (skill_score text_similarity experience_score : ℚ) (missing_skills : List String),
      (get_improvement_suggestions skill_score text_similarity experience_score missing_skills =
        if suggestion_parts skill_score text_similarity experience_score missing_skills = []
        then [msg_excellent]
        else suggestion_parts skill_score text_similarity experience_score missing_skills)
      ∧ (get_improvement_suggestions skill_score text_similarity experience_score missing_skills =
            [msg_excellent] ↔
          ¬ skill_score < 0.6 ∧ ¬ text_similarity < 0.4 ∧ ¬ experience_score < 0.5
            ∧ missing_skills = []) := by
  intro s t e m
  have hmain : get_improvement_suggestions s t e m =
      if suggestion_parts s t e m = [] then [msg_excellent] else suggestion_parts s t e m := by
    unfold get_improvement_suggestions suggestion_parts
    split_ifs <;> simp_all
  refine ⟨hmain, ?_⟩
  constructor
  · intro hout
    by_cases hparts : suggestion_parts s t e m = []
    · have hempty := hparts
      unfold suggestion_parts at hempty
      simp only [List.append_eq_nil] at hempty
      obtain ⟨⟨⟨h1, h2⟩, h3⟩, h4⟩ := hempty
      refine ⟨?_, ?_, ?_, ?_⟩
      · intro hs
        split_ifs at h1
      · intro ht
        split_ifs at h2
      · intro he
        split_ifs at h3
      · by_contra hm
        split_ifs at h4
    · rw [hmain, if_neg hparts] at hout
      exact absurd (hout ▸ List.mem_singleton_self msg_excellent)
        (msg_excellent_not_mem_parts s t e m)
  · rintro ⟨hs, ht, he, hm⟩
    rw [hmain, if_pos]
    unfold suggestion_parts
    rw [if_neg (fun h => hs (h.trans (by norm_num))), if_neg hs,
      if_neg (fun h => ht (h.trans (by norm_num))), if_neg ht, if_neg he, if_neg (by simp [hm])]
    rfl

/-- With the always-succeeding scoring step the accumulation loop is a plain
map. -/
lemma processResumes_ok (f : ResumeData → RankedResume) (l : List ResumeData) :
    processResumes (fun d => Except.ok (f d)) l = l.map f := by
  induction l with
  | nil => rfl
  | cons d ds ih => simp [processResumes, ih]

/-- The accumulation loop distributes over list append. -/
lemma processResumes_append (score : ResumeData → Except String RankedResume)
    (l₁ l₂ : List ResumeData) :
    processResumes score (l₁ ++ l₂) = processResumes score l₁ ++ processResumes score l₂ := by
  induction l₁ with
  | nil => rfl
  | cons d ds ih =>
    cases hd : score d <;> simp [processResumes, hd, ih]

/-- Stability of insertion sort, in filter form: for a predicate `p` that
only selects mutually `r`-related elements (e.g. "has final score `v`"),
sorting does not disturb the relative order of the selected elements. -/
lemma insertionSort_filter_stable {α : Type} (r : α → α → Prop) [DecidableRel r]
    (p : α → Bool) (hp : ∀ a b, p a = true → p b = true → r a b) (l : List α) :
    (List.insertionSort r l).filter p = l.filter p := by
  have hall : ∀ a ∈ l.filter p, p a := fun a ha => List.of_mem_filter ha
  have hpair : (l.filter p).Pairwise r := by
    refine List.pairwise_of_forall_mem_list ?_
    intro a ha b hb
    exact hp a b (hall a ha) (hall b hb)
  have hsub : List.Sublist (l.filter p) (List.insertionSort r l) :=
    List.sublist_insertionSort hpair (List.filter_sublist l)
  have hself : (l.filter p).filter p = l.filter p :=
    List.filter_eq_self.mpr hall
  have hsub2 : List.Sublist (l.filter p) ((List.insertionSort r l).filter p) := by
    have := hsub.filter p
    rwa [hself] at this
  have hlen : ((List.insertionSort r l).filter p).length = (l.filter p).length :=
    ((List.perm_insertionSort r l).filter p).length_eq
  exact (hsub2.eq_of_length hlen.symm).symm

/-- **C7**: `rank_resumes` returns exactly the scored resumes (a permutation
of scoring each input in place), sorted so that every earlier entry's
`final_score` is at least every later one's, and stably: for each score
value `v`, the subsequence of output entries with final score `v` is
identical to the subsequence of scored inputs with final score `v`, i.e.
tied resumes stay in first-seen input order. -/
theorem c7_rank_resumes_sorted_stable :
    ∀ (self : ResumeRanker) (resumes_data : List ResumeData) (job : JobRequirements),
      List.Sorted scoreGE (self.rank_resumes resumes_data job)
      ∧ (self.rank_resumes resumes_data job).Perm
          (resumes_data.map (fun d => self.scoreResume d job))
      ∧ ∀ v : ℚ,
          (self.rank_resumes resumes_data job).filter (fun r => decide (r.final_score = v)) =
            (resumes_data.map (fun d => self.scoreResume d job)).filter
              (fun r => decide (r.final_score = v)) := by
  intro self l job
  unfold ResumeRanker.rank_resumes rank_resumes_core
  rw [processResumes_ok]
  refine ⟨List.sorted_insertionSort scoreGE _, List.perm_insertionSort scoreGE _, ?_⟩
  intro v
  refine insertionSort_filter_stable scoreGE _ ?_ _
  intro a b ha hb
  simp only [decide_eq_true_eq] at ha hb
  unfold scoreGE
  rw [ha, hb]

/-- **C6**: every entry of the ranked output carries
`final_score = 0.40·skill + 0.35·similarity + 0.25·experience`, and whenever
the three component scores lie in `[0, 1]` the final score lies in
`[0, 1]` as well. -/
theorem c6_final_score_weighted_sum :
    ∀ (self : ResumeRanker) (resumes_data : List ResumeData) (job : JobRequirements)
      (r : RankedResume), r ∈ self.rank_resumes resumes_data job →
      (r.final_score =
        0.4 * r.skill_score + 0.35 * r.text_similarity + 0.25 * r.experience_score)
      ∧ (0 ≤ r.skill_score → r.skill_score ≤ 1 →
          0 ≤ r.text_similarity → r.text_similarity ≤ 1 →
          0 ≤ r.experience_score → r.experience_score ≤ 1 →
          0 ≤ r.final_score ∧ r.final_score ≤ 1) := by
  intro self l job r hmem
  unfold ResumeRanker.rank_resumes rank_resumes_core at hmem
  rw [processResumes_ok, List.mem_insertionSort] at hmem
  obtain ⟨d, -, rfl⟩ := List.mem_map.mp hmem
  have hw : (self.scoreResume d job).final_score =
      0.4 * (self.scoreResume d job).skill_score +
        0.35 * (self.scoreResume d job).text_similarity +
        0.25 * (self.scoreResume d job).experience_score := by
    simp only [ResumeRanker.scoreResume]
    ring
  refine ⟨hw, ?_⟩
  intro h1 h2 h3 h4 h5 h6
  rw [hw]
  constructor <;> linarith

/-- Concrete contact record for the witnesses. -/
def sampleContact : ContactInfo :=
  ⟨none, none⟩

/-- Concrete resume record for the witnesses. -/
def sampleResume : ResumeData :=
  ⟨"resume.pdf", "", [], 0, sampleContact⟩

/-- Concrete job record for the witnesses. -/
def sampleJob : JobRequirements :=
  ⟨"desc", [], 0⟩

/-- The scored sample resume. -/
def sampleRanked : RankedResume :=
  (ResumeRanker.init none).scoreResume sampleResume sampleJob

/-- Witness for C6 at a concrete batch: the scored sample resume is in the
ranked output, its final score is the weighted sum, and it lies in
`[0, 1]`. -/
theorem c6_final_score_weighted_sum_witness :
    sampleRanked.final_score =
      0.4 * sampleRanked.skill_score + 0.35 * sampleRanked.text_similarity +
        0.25 * sampleRanked.experience_score
    ∧ 0 ≤ sampleRanked.final_score ∧ sampleRanked.final_score ≤ 1 := by
  have hmem : sampleRanked ∈ (ResumeRanker.init none).rank_resumes [sampleResume] sampleJob := by
    unfold ResumeRanker.rank_resumes rank_resumes_core
    rw [processResumes_ok]
    simp [List.insertionSort, List.orderedInsert, sampleRanked]
  have h := c6_final_score_weighted_sum (ResumeRanker.init none) [sampleResume] sampleJob
    sampleRanked hmem
  have hskill : sampleRanked.skill_score = 0 := by
    simp [sampleRanked, ResumeRanker.scoreResume, sampleJob, sampleResume,
      calculate_skill_match_score]
  have hsim : sampleRanked.text_similarity = 0 := by
    simp [sampleRanked, ResumeRanker.scoreResume, sampleJob, sampleResume,
      ResumeRanker.calculate_text_similarity]
  have hexp : sampleRanked.experience_score = 1 := by
    simp [sampleRanked, ResumeRanker.scoreResume, sampleJob, sampleResume,
      calculate_experience_score]
  exact ⟨h.1, h.2 (by rw [hskill]) (by rw [hskill]; norm_num) (by rw [hsim])
    (by rw [hsim]; norm_num) (by rw [hexp]; norm_num) (by rw [hexp])⟩

/-- **C10**: if the per-resume scoring step fails on one resume of a batch,
the loop's `except` handler drops exactly that resume — the ranking of the
batch equals the ranking with the failing resume removed — the batch is not
aborted, and the output is still the sorted permutation of the successfully
scored remainder. -/
theorem c10_failed_resume_skipped :
    ∀ (score : ResumeData → Except String RankedResume) (l₁ l₂ : List ResumeData)
      (bad : ResumeData) (e : String), score bad = Except.error e →
      rank_resumes_core score (l₁ ++ bad :: l₂) = rank_resumes_core score (l₁ ++ l₂)
      ∧ List.Sorted scoreGE (rank_resumes_core score (l₁ ++ bad :: l₂))
      ∧ (rank_resumes_core score (l₁ ++ bad :: l₂)).Perm
          (processResumes score l₁ ++ processResumes score l₂) := by
  intro score l₁ l₂ bad e he
  have hdrop : processResumes score (bad :: l₂) = processResumes score l₂ := by
    simp [processResumes, he]
  have hproc : processResumes score (l₁ ++ bad :: l₂) =
      processResumes score l₁ ++ processResumes score l₂ := by
    rw [processResumes_append, hdrop]
  refine ⟨?_, List.sorted_insertionSort scoreGE _, ?_⟩
  · unfold rank_resumes_core
    rw [hproc, processResumes_append]
  · unfold rank_resumes_core
    rw [hproc]
    exact List.perm_insertionSort scoreGE _

/-- A resume on which the C10 witness scoring function fails. -/
def badResume : ResumeData :=
  ⟨"bad.pdf", "x", [], 0, sampleContact⟩

/-- Witness scoring step: raises (returns `Except.error`) exactly on
`badResume`, scores every other resume normally. -/
def c10Score (d : ResumeData) : Except String RankedResume :=
  if d.filename = "bad.pdf" then Except.error "malformed resume"
  else Except.ok ((ResumeRanker.init none).scoreResume d sampleJob)

/-- Witness for C10 at a concrete batch with one failing resume. -/
theorem c10_failed_resume_skipped_witness :
    rank_resumes_core c10Score ([sampleResume] ++ badResume :: []) =
      rank_resumes_core c10Score ([sampleResume] ++ [])
    ∧ List.Sorted scoreGE (rank_resumes_core c10Score ([sampleResume] ++ badResume :: []))
    ∧ (rank_resumes_core c10Score ([sampleResume] ++ badResume :: [])).Perm
        (processResumes c10Score [sampleResume] ++ processResumes c10Score []) := by
  exact c10_failed_resume_skipped c10Score [sampleResume] [] badResume "malformed resume"
    (by simp [c10Score, badResume])

/-- Characters between `1` and `9` are digits. -/
lemma isDigit_of_one_le {c : Char} (h1 : '1' ≤ c) (h2 : c ≤ '9') : c.isDigit = true := by
  simp only [Char.isDigit]
  have h0 : '0' ≤ c := le_trans (by decide) h1
  simp only [decide_eq_true_eq, Bool.and_eq_true]
  exact ⟨h0, h2⟩

/-- Everything in a digit run is a digit, also after a `take`. -/
lemma all_isDigit_take (r : List Char) (n : Nat) :
    ((r.takeWhile Char.isDigit).take n).all Char.isDigit = true := by
  rw [List.all_eq_true]
  intro x hx
  exact List.mem_takeWhile_imp (List.mem_of_mem_take hx)

/-- The digit part of a phone match is a digit string of length 7 to 16. -/
lemma tryPhoneCore_shape (cs : List Char) (m : List Char) (h : tryPhoneCore cs = some m) :
    m.all Char.isDigit = true ∧ 7 ≤ m.length ∧ m.length ≤ 16 := by
  cases cs with
  | nil => exact absurd h (by simp [tryPhoneCore])
  | cons c r =>
    simp only [tryPhoneCore] at h
    split_ifs at h with h19 h7 h6 h7'
    · obtain rfl : c :: (r.takeWhile Char.isDigit).take 15 = m := Option.some.inj h
      refine ⟨?_, ?_, ?_⟩
      · simp only [List.all_cons, Bool.and_eq_true]
        exact ⟨isDigit_of_one_le h19.1 h19.2, all_isDigit_take r 15⟩
      · simp only [List.length_cons, List.length_take]
        omega
      · simp only [List.length_cons, List.length_take]
        omega
    · obtain rfl : c :: r.takeWhile Char.isDigit = m := Option.some.inj h
      have hlen : (r.takeWhile Char.isDigit).length = 6 := by omega
      refine ⟨?_, ?_, ?_⟩
      · simp only [List.all_cons, Bool.and_eq_true]
        refine ⟨isDigit_of_one_le h19.1 h19.2, ?_⟩
        rw [List.all_eq_true]
        intro x hx
        exact List.mem_takeWhile_imp hx
      · simp [hlen]
      · simp [hlen]
    · obtain rfl : ((c :: r).takeWhile Char.isDigit).take 15 = m := Option.some.inj h
      refine ⟨all_isDigit_take (c :: r) 15, ?_, ?_⟩
      · simp only [List.length_take]
        omega
      · simp only [List.length_take]
        omega

/-- A phone match is an optional `+` followed by 7 to 16 digits. -/
lemma tryPhone_shape (cs : List Char) (m : List Char) (h : tryPhone cs = some m) :
    ∃ ds : List Char, (m = ds ∨ m = '+' :: ds)
      ∧ ds.all Char.isDigit = true ∧ 7 ≤ ds.length ∧ ds.length ≤ 16 := by
  unfold tryPhone at h
  split_ifs at h with hplus
  · obtain ⟨ds, hds, rfl⟩ := Option.map_eq_some'.mp h
    exact ⟨ds, Or.inr rfl, tryPhoneCore_shape _ _ hds⟩
  · exact ⟨m, Or.inl rfl, tryPhoneCore_shape _ _ h⟩

/-- The leftmost phone match is an optional `+` followed by 7 to 16
digits. -/
lemma findPhone_shape (cs : List Char) (m : List Char) (h : findPhone cs = some m) :
    ∃ ds : List Char, (m = ds ∨ m = '+' :: ds)
      ∧ ds.all Char.isDigit = true ∧ 7 ≤ ds.length ∧ ds.length ≤ 16 := by
  induction cs with
  | nil => exact absurd h (by simp [findPhone])
  | cons c rest ih =>
    rw [findPhone] at h
    cases htry : tryPhone (c :: rest) with
    | some m' =>
      rw [htry] at h
      obtain rfl : m' = m := Option.some.inj h
      exact tryPhone_shape _ _ htry
    | none =>
      rw [htry] at h
      exact ih h

/-- **C9** (counterexample).  The claim bounds the extracted phone value at
15 digits, but on a run of 16 digits the regex `[\+]?[1-9]?[0-9]{7,15}`
matches all 16 (`[1-9]` takes the first, `[0-9]{7,15}` the other fifteen):
the extracted phone is not a 7-to-15-digit sequence. -/
theorem c9_counterexample :
    (extract_contact_info "1234567890123456").phone = some "1234567890123456"
    ∧ claimPhoneShape "1234567890123456" = false := by
  constructor
  · decide
  · decide

/-- **C9** (amended).  `extract_contact_info` yields at most one email — the
leftmost match of the email regex, never the empty string, the field absent
when there is no match — and at most one phone value — the leftmost match of
the phone regex, which is an optional leading `+` followed by 7 to *16*
digits, never empty, the field absent when there is no match. -/
theorem c9_contact_extraction :
    ∀ text : String,
      ((extract_contact_info text).email = (findEmail none text.data).map (fun m => String.mk m))
      ∧ ((extract_contact_info text).phone = (findPhone text.data).map (fun m => String.mk m))
      ∧ (∀ p : String, (extract_contact_info text).phone = some p →
          actualPhoneShape p = true ∧ p ≠ "") := by
  intro text
  refine ⟨rfl, rfl, ?_⟩
  intro p hp
  simp only [extract_contact_info, Option.map_eq_some'] at hp
  obtain ⟨m, hm, rfl⟩ := hp
  obtain ⟨ds, hcase, hdig, h7, h16⟩ := findPhone_shape _ _ hm
  rcases hcase with heq | heq
  · subst heq
    have hne : m ≠ [] := by
      intro h
      rw [h] at h7
      exact absurd h7 (by simp)
    have hhead : (String.mk m).data.head? ≠ some '+' := by
      cases m with
      | nil => simp
      | cons d ds' =>
        intro hd
        have hd' : d = '+' := Option.some.inj hd
        rw [List.all_cons, Bool.and_eq_true] at hdig
        rw [hd'] at hdig
        exact absurd hdig.1 (by decide)
    refine ⟨?_, ?_⟩
    · unfold actualPhoneShape
      rw [if_neg hhead]
      simp only [Bool.and_eq_true, decide_eq_true_eq]
      exact ⟨⟨hdig, h7⟩, h16⟩
    · intro hemp
      exact hne (congrArg String.data hemp)
  · subst heq
    refine ⟨?_, ?_⟩
    · unfold actualPhoneShape
      have hif : (if (String.mk ('+' :: ds)).data.head? = some '+'
          then (String.mk ('+' :: ds)).data.tail else (String.mk ('+' :: ds)).data) = ds := rfl
      rw [hif]
      simp only [Bool.and_eq_true, decide_eq_true_eq]
      exact ⟨⟨hdig, h7⟩, h16⟩
    · intro hemp
      exact List.cons_ne_nil '+' ds (congrArg String.data hemp)

/-- Witness for C9 at a concrete input containing both an email and a
phone number. -/
theorem c9_contact_extraction_witness :
    actualPhoneShape "1234567" = true ∧ ("1234567" : String) ≠ "" := by
  have h := c9_contact_extraction "a@b.co call 1234567"
  have hphone : (extract_contact_info "a@b.co call 1234567").phone = some "1234567" := by
    decide
  exact h.2.2 "1234567" hphone

end ResumeAnalyzer
